import Mathlib

/-!
# Verification of the narsil-mcp neural setup wizard (src/config/wizard.rs)

Shallow embedding of the config-merge wizard: the JSON document model
(serde_json `Value` with BTreeMap-backed objects, embedded as association
lists), the merge algorithm `add_to_editor_config`, dialect classification
`detect_editor_type`, the credential rules (`ApiProvider::parse`,
`sanitize_api_key`, `validate_key_format`), and a string-level JSON parser
mirroring serde_json's accept/reject behaviour for the file-level claims.
-/

set_option autoImplicit false

namespace Narsil

/-- JSON values, mirroring `serde_json::Value`.  Numbers are kept as their
literal source text: the wizard never computes with numbers, it only carries
them through unchanged, so the literal is a faithful representation for the
document-transformation claims. -/
inductive Json where
  | null
  | bool (b : Bool)
  | num (lit : String)
  | str (s : String)
  | arr (elems : List Json)
  | obj (entries : List (String × Json))

/-- First-match association-list lookup (`serde_json::Map::get`; keys in a
`BTreeMap` are unique, so first-match agrees with map lookup). -/
def lookup : List (String × Json) → String → Option Json
  | [], _ => none
  | (k, v) :: rest, key => if k = key then some v else lookup rest key

/-- `serde_json::Map` insert: replace the value at an existing key, otherwise
add a new entry. -/
def objSet : List (String × Json) → String → Json → List (String × Json)
  | [], key, v => [(key, v)]
  | (k, w) :: rest, key, v =>
      if k = key then (key, v) :: rest else (k, w) :: objSet rest key v

/-- `Value::get(key)`: `Some` only on objects containing the key. -/
def Json.get? : Json → String → Option Json
  | .obj kvs, key => lookup kvs key
  | _, _ => none

/-- Immutable `Value` indexing `value[key]`: on objects returns the entry or
`Null` when absent; on every other value returns `Null` (never panics). -/
def Json.index : Json → String → Json
  | .obj kvs, key => (lookup kvs key).getD .null
  | _, _ => .null

/-- Chained mutable indexing followed by assignment,
`value[k1][k2]...[kn] = v` (serde_json `index_or_insert` at every step):
on an object, descend into the entry (inserting `Null` when the key is
absent); on `Null`, replace it with an empty object first; on any other
value — array, string, number, bool — the Rust code panics, modelled as
`none`. -/
def Json.setIn : Json → List String → Json → Option Json
  | _, [], v => some v
  | .obj kvs, key :: rest, v =>
      match Json.setIn ((lookup kvs key).getD .null) rest v with
      | some inner => some (.obj (objSet kvs key inner))
      | none => none
  | .null, key :: rest, v =>
      match Json.setIn .null rest v with
      | some inner => some (.obj [(key, inner)])
      | none => none
  | _, _ :: _, _ => none

/-- The default `narsil-mcp` server entry created by the wizard:
`{"command": "narsil-mcp", "args": ["--repos", ".", "--neural"]}`. -/
def defaultServerEntry : Json :=
  .obj [("command", .str "narsil-mcp"),
        ("args", .arr [.str "--repos", .str ".", .str "--neural"])]

/-- The in-memory document transformation of
`NeuralWizard::add_to_editor_config` (wizard.rs lines 230–249), after the
file has been read/parsed and the dialect's container key `serverKey` has
been determined.  `none` models a Rust panic (serde_json's `IndexMut` on a
non-object, non-null value). -/
def mergeDoc (serverKey envVarName apiKey : String) (config : Json) : Option Json :=
  -- if config.get(server_key).is_none() { config[server_key] = json!({}); }
  (if (config.get? serverKey).isNone
    then config.setIn [serverKey] (.obj [])
    else some config).bind fun config =>
  -- if config[server_key].get("narsil-mcp").is_none() { ... default entry ... }
  (if ((config.index serverKey).get? "narsil-mcp").isNone
    then config.setIn [serverKey, "narsil-mcp"] defaultServerEntry
    else some config).bind fun config =>
  -- if config[server_key]["narsil-mcp"].get("env").is_none() { ... = json!({}) }
  (if (((config.index serverKey).index "narsil-mcp").get? "env").isNone
    then config.setIn [serverKey, "narsil-mcp", "env"] (.obj [])
    else some config).bind fun config =>
  -- config[server_key]["narsil-mcp"]["env"][env_var_name] = json!(api_key);
  config.setIn [serverKey, "narsil-mcp", "env", envVarName] (.str apiKey)

/-- The five supported editors (src/config/editor.rs, re-exported to the
wizard). -/
inductive EditorType where
  | ClaudeDesktop
  | ClaudeCode
  | Zed
  | VSCode
  | JetBrains
deriving DecidableEq

/-- The three embedding providers (wizard.rs lines 9–14). -/
inductive ApiProvider where
  | Voyage
  | OpenAI
  | Custom
deriving DecidableEq

/-- ASCII lowercasing of one character, as Rust `to_lowercase` acts on
ASCII letters (the only characters the match arms of `parse` can accept). -/
def asciiToLower (c : Char) : Char :=
  if 'A' ≤ c && c ≤ 'Z' then Char.ofNat (c.toNat + 32) else c

/-- Lowercase a string character-wise. -/
def strToLower (s : String) : String := ⟨s.data.map asciiToLower⟩

/-- `ApiProvider::parse` (wizard.rs lines 17–24): lowercase the token, then
match it against the names and 1-based ordinals. -/
def ApiProvider.parse (s : String) : Option ApiProvider :=
  let t := strToLower s
  if t = "voyage" ∨ t = "1" then some .Voyage
  else if t = "openai" ∨ t = "2" then some .OpenAI
  else if t = "custom" ∨ t = "3" then some .Custom
  else none

/-- `ApiProvider::env_var_name` (wizard.rs lines 26–32). -/
def ApiProvider.env_var_name : ApiProvider → String
  | .Voyage => "VOYAGE_API_KEY"
  | .OpenAI => "OPENAI_API_KEY"
  | .Custom => "EMBEDDING_API_KEY"

/-- Does the list start with the given pattern? -/
def startsWithSeq : List Char → List Char → Bool
  | _, [] => true
  | [], _ :: _ => false
  | a :: as, b :: bs => a == b && startsWithSeq as bs

/-- Does the list contain the pattern as a contiguous subsequence? -/
def containsSeq (pat : List Char) : List Char → Bool
  | [] => pat.isEmpty
  | c :: rest => startsWithSeq (c :: rest) pat || containsSeq pat rest

/-- Rust `str::contains(pat)`: substring search on the characters. -/
def containsSub (s pat : String) : Bool := containsSeq pat.data s.data

/-- Split a character list on a separator character; always returns at
least one (possibly empty) segment. -/
def splitOnChar (sep : Char) : List Char → List (List Char)
  | [] => [[]]
  | c :: rest =>
      let r := splitOnChar sep rest
      if c == sep then [] :: r
      else
        match r with
        | [] => [[c]]
        | hd :: tl => (c :: hd) :: tl

/-- Rust `Path::file_name().and_then(|f| f.to_str()).unwrap_or("")` for
Unix-style paths: the last non-empty, non-`.` component, and `""` when the
path ends in `..` or has no component. -/
def fileName (path : String) : String :=
  let comps := (splitOnChar '/' path.data).filter (fun c => !(c.isEmpty || c == ['.']))
  match comps.getLast? with
  | some c => if c == ['.', '.'] then "" else ⟨c⟩
  | none => ""

/-- `NeuralWizard::detect_editor_type` (wizard.rs lines 258–291): classify
the config path by exact filename first, then by substring fallback; an
unmatched path is an error. -/
def detect_editor_type (config_path : String) : Except String EditorType :=
  let path_str := config_path
  let filename := fileName config_path
  if filename = "claude_desktop_config.json" then .ok .ClaudeDesktop
  else if filename = "claude_code_config.json" then .ok .ClaudeCode
  else if filename = "settings.json" && containsSub path_str "zed" then .ok .Zed
  else if filename = "settings.json" then .ok .Zed
  else if filename = "mcp.json" && containsSub path_str ".vscode" then .ok .VSCode
  else if filename = "mcp.json" && containsSub path_str ".idea" then .ok .JetBrains
  else if filename = "mcp.json" then .ok .VSCode
  else if containsSub path_str "zed" then .ok .Zed
  else if containsSub path_str ".vscode" then .ok .VSCode
  else if containsSub path_str ".idea" then .ok .JetBrains
  else .error ("Unknown editor config path: " ++ path_str)

/-- `NeuralWizard::get_config_key_for_editor` (wizard.rs lines 293–299). -/
def get_config_key_for_editor : EditorType → String
  | .ClaudeDesktop | .ClaudeCode => "mcpServers"
  | .Zed => "context_servers"
  | .VSCode | .JetBrains => "servers"

/-- Drop every leading and every trailing character satisfying `p`
(the common shape of Rust's `str::trim` and `str::trim_matches`). -/
def trimEnds (p : Char → Bool) (l : List Char) : List Char :=
  ((l.dropWhile p).reverse.dropWhile p).reverse

/-- Rust `char::is_whitespace`: the Unicode White_Space property —
U+0009–U+000D, space, NEL, NBSP, OGHAM SPACE MARK, the U+2000–U+200A
spaces, LINE/PARAGRAPH SEPARATOR, NARROW NO-BREAK SPACE, MEDIUM
MATHEMATICAL SPACE and IDEOGRAPHIC SPACE. -/
def rustIsWhitespace (c : Char) : Bool :=
  (0x09 ≤ c.toNat && c.toNat ≤ 0x0d) || c.toNat == 0x20 || c.toNat == 0x85 ||
  c.toNat == 0xa0 || c.toNat == 0x1680 || (0x2000 ≤ c.toNat && c.toNat ≤ 0x200a) ||
  c.toNat == 0x2028 || c.toNat == 0x2029 || c.toNat == 0x202f || c.toNat == 0x205f ||
  c.toNat == 0x3000

/-- Rust `str::trim`: strips Unicode White_Space from both ends. -/
def rustTrim (s : String) : String := ⟨trimEnds rustIsWhitespace s.data⟩

/-- Rust `str::trim_matches(c)`: strips ALL leading and trailing
occurrences of `c`, not just one. -/
def rustTrimMatches (c : Char) (s : String) : String :=
  ⟨trimEnds (fun x => x == c) s.data⟩

/-- `NeuralWizard::sanitize_api_key` (wizard.rs line 191):
`key.trim().trim_matches('"').trim_matches('\'')`. -/
def sanitize_api_key (s : String) : String :=
  rustTrimMatches '\'' (rustTrimMatches '"' (rustTrim s))

/-- Rust `str::starts_with(pat)` on string patterns. -/
def rustStartsWith (s pre : String) : Bool := pre.data.isPrefixOf s.data

/-- `NeuralWizard::validate_key_format` (wizard.rs lines 194–200).  Rust's
`key.len()` counts UTF-8 bytes, embedded as `String.utf8ByteSize`. -/
def validate_key_format (key : String) (provider : ApiProvider) : Bool :=
  match provider with
  | .Voyage => rustStartsWith key "pa-" && decide (key.utf8ByteSize > 10)
  | .OpenAI => rustStartsWith key "sk-" && decide (key.utf8ByteSize > 10)
  | .Custom => !key.isEmpty

/-! ## String-level JSON parsing and serialization

`add_to_editor_config` reads the file's bytes and parses them with
`serde_json::from_str`; the parser below mirrors serde_json's grammar
(RFC 8259): literals, escaped strings, numbers (kept as literal text),
arrays and objects, with duplicate object keys resolved last-wins as in
serde_json's map.  Recursion is by fuel, with fuel amply larger than the
input length.  Lone `\uXXXX` surrogate escapes are mapped through
`Char.ofNat` instead of being rejected — no claim depends on them. -/

/-- JSON insignificant whitespace (RFC 8259 §2). -/
def isJsonWs (c : Char) : Bool := c == ' ' || c == '\t' || c == '\n' || c == '\r'

def skipWs (l : List Char) : List Char := l.dropWhile isJsonWs

def isHexDigitChar (c : Char) : Bool :=
  c.isDigit || ('a' ≤ c && c ≤ 'f') || ('A' ≤ c && c ≤ 'F')

def hexVal (c : Char) : Nat :=
  if c.isDigit then c.toNat - 48
  else if 'a' ≤ c then c.toNat - 87
  else c.toNat - 55

/-- Parse the body of a JSON string after the opening quote, returning the
decoded characters and the input after the closing quote. -/
def parseStringBody : List Char → Option (List Char × List Char)
  | [] => none
  | '"' :: rest => some ([], rest)
  | '\\' :: '"' :: r => (parseStringBody r).map (fun p => ('"' :: p.1, p.2))
  | '\\' :: '\\' :: r => (parseStringBody r).map (fun p => ('\\' :: p.1, p.2))
  | '\\' :: '/' :: r => (parseStringBody r).map (fun p => ('/' :: p.1, p.2))
  | '\\' :: 'b' :: r => (parseStringBody r).map (fun p => ('\x08' :: p.1, p.2))
  | '\\' :: 'f' :: r => (parseStringBody r).map (fun p => ('\x0c' :: p.1, p.2))
  | '\\' :: 'n' :: r => (parseStringBody r).map (fun p => ('\n' :: p.1, p.2))
  | '\\' :: 'r' :: r => (parseStringBody r).map (fun p => ('\r' :: p.1, p.2))
  | '\\' :: 't' :: r => (parseStringBody r).map (fun p => ('\t' :: p.1, p.2))
  | '\\' :: 'u' :: h1 :: h2 :: h3 :: h4 :: r =>
      if isHexDigitChar h1 && isHexDigitChar h2 && isHexDigitChar h3 && isHexDigitChar h4 then
        (parseStringBody r).map (fun p =>
          (Char.ofNat (((hexVal h1 * 16 + hexVal h2) * 16 + hexVal h3) * 16 + hexVal h4) :: p.1, p.2))
      else none
  | '\\' :: _ => none
  | c :: rest =>
      if c.toNat < 32 then none
      else (parseStringBody rest).map (fun p => (c :: p.1, p.2))

def digitsSplit (l : List Char) : List Char × List Char :=
  (l.takeWhile Char.isDigit, l.dropWhile Char.isDigit)

/-- JSON number integer part: `0`, or a nonzero digit followed by digits. -/
def parseIntPart : List Char → Option (List Char × List Char)
  | '0' :: r => some (['0'], r)
  | c :: r =>
      if c.isDigit then some (digitsSplit (c :: r)) else none
  | [] => none

/-- Optional fraction part `.digits`. -/
def parseFracPart : List Char → Option (List Char × List Char)
  | '.' :: r =>
      let p := digitsSplit r
      if p.1.isEmpty then none else some ('.' :: p.1, p.2)
  | l => some ([], l)

/-- Optional exponent part `(e|E)(+|-)?digits`. -/
def parseExpPart : List Char → Option (List Char × List Char)
  | c :: r =>
      if c == 'e' || c == 'E' then
        let sgn : List Char × List Char :=
          match r with
          | s :: r2 => if s == '+' || s == '-' then ([s], r2) else ([], s :: r2)
          | [] => ([], [])
        let p := digitsSplit sgn.2
        if p.1.isEmpty then none else some (c :: (sgn.1 ++ p.1), p.2)
      else some ([], c :: r)
  | [] => some ([], [])

/-- JSON number literal `-? int frac? exp?`, returned as its source text. -/
def parseNumLit (l : List Char) : Option (List Char × List Char) :=
  let mk (sgn : List Char) (l1 : List Char) : Option (List Char × List Char) :=
    (parseIntPart l1).bind fun ip =>
      (parseFracPart ip.2).bind fun fp =>
        (parseExpPart fp.2).map fun ep =>
          (sgn ++ ip.1 ++ fp.1 ++ ep.1, ep.2)
  match l with
  | '-' :: r => mk ['-'] r
  | _ => mk [] l

/-- Collapse parsed object entries last-wins, as `serde_json::Map` insert
does for duplicate keys. -/
def collapseEntries (entries : List (String × Json)) : List (String × Json) :=
  entries.foldl (fun acc kv => objSet acc kv.1 kv.2) []

mutual

/-- Parse one JSON value (after optional leading whitespace). -/
def parseValue : Nat → List Char → Option (Json × List Char)
  | 0, _ => none
  | fuel + 1, l =>
    match skipWs l with
    | 'n' :: 'u' :: 'l' :: 'l' :: rest => some (.null, rest)
    | 't' :: 'r' :: 'u' :: 'e' :: rest => some (.bool true, rest)
    | 'f' :: 'a' :: 'l' :: 's' :: 'e' :: rest => some (.bool false, rest)
    | '"' :: rest => (parseStringBody rest).map (fun p => (.str ⟨p.1⟩, p.2))
    | '[' :: rest =>
        (match skipWs rest with
         | ']' :: r2 => some (.arr [], r2)
         | l2 => (parseArrItems fuel l2).map (fun p => (.arr p.1, p.2)))
    | '{' :: rest =>
        (match skipWs rest with
         | '}' :: r2 => some (.obj [], r2)
         | l2 => (parseObjItems fuel l2).map (fun p => (.obj (collapseEntries p.1), p.2)))
    | c :: rest =>
        if c == '-' || c.isDigit then
          (parseNumLit (c :: rest)).map (fun p => (.num ⟨p.1⟩, p.2))
        else none
    | [] => none

/-- Parse `value (, value)* ]` — at least one element. -/
def parseArrItems : Nat → List Char → Option (List Json × List Char)
  | 0, _ => none
  | fuel + 1, l =>
    (parseValue fuel l).bind fun p =>
      match skipWs p.2 with
      | ',' :: r2 => (parseArrItems fuel r2).map (fun q => (p.1 :: q.1, q.2))
      | ']' :: r2 => some ([p.1], r2)
      | _ => none

/-- Parse `"key": value (, "key": value)* }` — at least one member. -/
def parseObjItems : Nat → List Char → Option (List (String × Json) × List Char)
  | 0, _ => none
  | fuel + 1, l =>
    match skipWs l with
    | '"' :: rest =>
        (parseStringBody rest).bind fun kp =>
          match skipWs kp.2 with
          | ':' :: r2 =>
              (parseValue fuel r2).bind fun vp =>
                match skipWs vp.2 with
                | ',' :: r4 => (parseObjItems fuel r4).map (fun q => ((⟨kp.1⟩, vp.1) :: q.1, q.2))
                | '}' :: r4 => some ([(⟨kp.1⟩, vp.1)], r4)
                | _ => none
          | _ => none
    | _ => none

end

/-- `serde_json::from_str::<Value>`: parse one value, then require only
trailing whitespace. -/
def parseJson (s : String) : Option Json :=
  match parseValue (2 * s.length + 4) s.data with
  | some (j, rest) => if (skipWs rest).isEmpty then some j else none
  | none => none

/-- Serialize one character inside a JSON string per serde_json's escaper. -/
def escapeChar (c : Char) : List Char :=
  if c == '"' then ['\\', '"']
  else if c == '\\' then ['\\', '\\']
  else if c == '\n' then ['\\', 'n']
  else if c == '\r' then ['\\', 'r']
  else if c == '\t' then ['\\', 't']
  else if c == '\x08' then ['\\', 'b']
  else if c == '\x0c' then ['\\', 'f']
  else if c.toNat < 32 then
    ['\\', 'u', '0', '0',
     (Nat.digitChar (c.toNat / 16)), (Nat.digitChar (c.toNat % 16))]
  else [c]

def renderString (s : String) : String :=
  ⟨'"' :: ((s.data.map escapeChar).flatten ++ ['"'])⟩

mutual

/-- Serialization of the merged document (`serde_json::to_string_pretty`,
wizard.rs line 252).  Layout whitespace is not reproduced — no claim
inspects the written bytes beyond their JSON content. -/
def renderJson : Json → String
  | .null => "null"
  | .bool true => "true"
  | .bool false => "false"
  | .num lit => lit
  | .str s => renderString s
  | .arr xs => "[" ++ renderArr xs ++ "]"
  | .obj kvs => "\x7b" ++ renderObj kvs ++ "\x7d"

def renderArr : List Json → String
  | [] => ""
  | [x] => renderJson x
  | x :: y :: xs => renderJson x ++ "," ++ renderArr (y :: xs)

def renderObj : List (String × Json) → String
  | [] => ""
  | [kv] => renderString kv.1 ++ ":" ++ renderJson kv.2
  | kv :: kv2 :: xs => renderString kv.1 ++ ":" ++ renderJson kv.2 ++ "," ++ renderObj (kv2 :: xs)

end

/-- The contents of the config file on disk: absent, or present with the
given bytes. -/
inductive FileState where
  | absent
  | present (content : String)
deriving DecidableEq

/-- Outcome of one `add_to_editor_config` call: `Ok(())`, an `anyhow`
error, or a Rust panic (from serde_json's `IndexMut` on an incompatible
value). -/
inductive Outcome where
  | ok
  | error (msg : String)
  | panic
deriving DecidableEq

/-- The steps of `add_to_editor_config` after read/parse: classify the
dialect (line 228), merge (lines 232–249), then write the serialized
document (lines 252–253).  Failures return the file unchanged — the write
is the final step. -/
def addParsed (config_path env_var_name api_key : String)
    (file : FileState) (config : Json) : Outcome × FileState :=
  match detect_editor_type config_path with
  | .error e => (.error e, file)
  | .ok et =>
      match mergeDoc (get_config_key_for_editor et) env_var_name api_key config with
      | none => (.panic, file)
      | some newConfig => (.ok, .present (renderJson newConfig))

/-- `NeuralWizard::add_to_editor_config` (wizard.rs lines 208–256) at the
file level.  Parent-directory creation (line 216) touches no file contents
and is not modelled.  An existing file is read and parsed — a parse
failure is a hard error before anything is written (lines 220–225); an
absent file starts from the empty object (line 224). -/
def add_to_editor_config (config_path env_var_name api_key : String)
    (file : FileState) : Outcome × FileState :=
  match file with
  | .present content =>
      match parseJson content with
      | none => (.error "Failed to parse existing config as JSON", file)
      | some config => addParsed config_path env_var_name api_key file config
  | .absent => addParsed config_path env_var_name api_key .absent (.obj [])

/-- Strip at most one leading occurrence of `c`. -/
def stripOneFront (c : Char) : List Char → List Char
  | [] => []
  | x :: xs => if x == c then xs else x :: xs

/-- Strip at most one occurrence of `c` from each end, each side
independently. -/
def stripOneEnds (c : Char) (l : List Char) : List Char :=
  (stripOneFront c (stripOneFront c l).reverse).reverse

/-- Modelled from the spec's words for claim C5: trim whitespace, then
trim EXACTLY ONE layer of surrounding double- or single-quote characters,
each quote kind applied independently on each side. -/
def sanitizeOneLayer (s : String) : String :=
  ⟨stripOneEnds '\'' (stripOneEnds '"' (trimEnds rustIsWhitespace s.data))⟩

/-- Strip every leading character satisfying `p` (explicit recursion, used
as an independent rendering of "trims all surrounding ... "). -/
def stripWhileFront (p : Char → Bool) : List Char → List Char
  | [] => []
  | x :: xs => if p x then stripWhileFront p xs else x :: xs

/-- Strip every character satisfying `p` from both ends, each side
independently. -/
def stripWhileEnds (p : Char → Bool) (l : List Char) : List Char :=
  (stripWhileFront p (stripWhileFront p l).reverse).reverse

/-- The amended reading of claim C5: trim surrounding whitespace, then ALL
surrounding double quotes, then ALL surrounding single quotes. -/
def sanitizeAllLayers (s : String) : String :=
  ⟨stripWhileEnds (fun x => x == '\'')
    (stripWhileEnds (fun x => x == '"')
      (stripWhileEnds rustIsWhitespace s.data))⟩

/-- A character that some stage of the sanitizer can strip from an end of
the string. -/
def isStrippableEdge (c : Char) : Bool := rustIsWhitespace c || c == '"' || c == '\''

/-- The string neither starts nor ends with a strippable character (or is
empty). -/
def goodEdges (l : List Char) : Bool :=
  match l, l.getLast? with
  | [], _ => true
  | c :: _, some z => !isStrippableEdge c && !isStrippableEdge z
  | _ :: _, none => true

/-- Modelled from the spec's words for claim C3: the classification
decision list read faithfully, in order.  Exact filename matches take
priority; a `settings.json` maps to Zed when its path contains `zed` OR
when it is bare, i.e. carries no other signal (neither `.vscode` nor
`.idea`) — a `settings.json` that does carry another signal is NOT matched
by the filename rules and falls to the substring fallback; `mcp.json` with
`.vscode` maps to VSCode, with `.idea` to JetBrains, and bare `mcp.json`
(neither substring — the spec's own reading of "bare" for `mcp.json`)
defaults to VSCode; then the substring fallback in the order `zed`,
`.vscode`, `.idea`; otherwise no classification. -/
def claimClassification (p : String) : Option EditorType :=
  let fn := fileName p
  if fn = "claude_desktop_config.json" then some .ClaudeDesktop
  else if fn = "claude_code_config.json" then some .ClaudeCode
  else if fn = "settings.json" ∧ containsSub p "zed" = true then some .Zed
  else if fn = "settings.json" ∧ containsSub p ".vscode" = false ∧
      containsSub p ".idea" = false then some .Zed
  else if fn = "mcp.json" then
    (if containsSub p ".vscode" = true then some .VSCode
     else if containsSub p ".idea" = true then some .JetBrains
     else some .VSCode)
  else if containsSub p "zed" = true then some .Zed
  else if containsSub p ".vscode" = true then some .VSCode
  else if containsSub p ".idea" = true then some .JetBrains
  else none

/-- The amended reading of claim C3, changed only where the counterexample
forces it: EVERY `settings.json` maps to Zed, even when the path carries a
`.vscode` or `.idea` signal (wizard.rs lines 270–274 send any
`settings.json` to Zed before the fallback is reached).  All other rules
are the claim's. -/
def amendedClassification (p : String) : Option EditorType :=
  let fn := fileName p
  if fn = "claude_desktop_config.json" then some .ClaudeDesktop
  else if fn = "claude_code_config.json" then some .ClaudeCode
  else if fn = "settings.json" then some .Zed
  else if fn = "mcp.json" then
    (if containsSub p ".vscode" = true then some .VSCode
     else if containsSub p ".idea" = true then some .JetBrains
     else some .VSCode)
  else if containsSub p "zed" = true then some .Zed
  else if containsSub p ".vscode" = true then some .VSCode
  else if containsSub p ".idea" = true then some .JetBrains
  else none

/-- The operating environments the editor locator distinguishes. -/
inductive Platform where
  | macos
  | windows
  | linux
deriving DecidableEq

/-- The fixed per-editor config filename (spec §4.1 table). -/
def editorFileName : EditorType → String
  | .ClaudeDesktop => "claude_desktop_config.json"
  | .ClaudeCode => "claude_code_config.json"
  | .Zed => "settings.json"
  | .VSCode => "mcp.json"
  | .JetBrains => "mcp.json"

/-- Modelled from the spec: `get_editor_config_path` lives in
src/config/editor.rs, which is not among the provided sources (only its
tests and callers are).  Spec §4.1 and tests/config/editor_detection_tests.rs
fix its shape: a platform-specific well-known directory (per-user
application-support directories for desktop apps, the project directory
for workspace-scoped tools) joined with a fixed filename per editor.
Paths are modelled as component lists. -/
def get_editor_config_path (plat : Platform) (home cwd : List String) :
    EditorType → List String
  | .ClaudeDesktop =>
      (match plat with
       | .macos => home ++ ["Library", "Application Support", "Claude"]
       | .windows => home ++ ["AppData", "Roaming", "Claude"]
       | .linux => home ++ [".config", "Claude"]) ++ ["claude_desktop_config.json"]
  | .ClaudeCode => (home ++ [".claude"]) ++ ["claude_code_config.json"]
  | .Zed =>
      (match plat with
       | .macos => home ++ [".config", "zed"]
       | .windows => home ++ ["AppData", "Roaming", "Zed"]
       | .linux => home ++ [".config", "zed"]) ++ ["settings.json"]
  | .VSCode => (cwd ++ [".vscode"]) ++ ["mcp.json"]
  | .JetBrains => (cwd ++ [".idea"]) ++ ["mcp.json"]

/-- `d` already holds value `v` at the object path `ps`, with every
intermediate step an object entry. -/
def followsPath : Json → List String → Json → Prop
  | d, [], v => d = v
  | d, p :: ps, v => ∃ c, d.get? p = some c ∧ followsPath c ps v

/-- The document shapes on which the merge's chained `IndexMut` never hits
a non-object, non-null value: the root, the container entry, the
`narsil-mcp` entry and its `env` field are each absent, `Null`, or an
object.  (On every other shape serde_json's indexing panics.) -/
def goodShape (serverKey : String) : Json → Bool
  | .null => true
  | .obj kvs =>
      (match lookup kvs serverKey with
       | none => true
       | some .null => true
       | some (.obj kvs2) =>
           (match lookup kvs2 "narsil-mcp" with
            | none => true
            | some .null => true
            | some (.obj kvs3) =>
                (match lookup kvs3 "env" with
                 | none => true
                 | some .null => true
                 | some (.obj _) => true
                 | some _ => false)
            | some _ => false)
       | some _ => false)
  | _ => false

/-! ## Structural lemmas about the document operations -/

@[simp] theorem lookup_nil (key : String) : lookup [] key = none := rfl

@[simp] theorem lookup_cons (k : String) (v : Json) (rest : List (String × Json)) (key : String) :
    lookup ((k, v) :: rest) key = if k = key then some v else lookup rest key := rfl

@[simp] theorem lookup_objSet_self (kvs : List (String × Json)) (key : String) (v : Json) :
    lookup (objSet kvs key v) key = some v := by
  induction kvs with
  | nil => simp [objSet]
  | cons hd tl ih =>
      obtain ⟨k, w⟩ := hd
      by_cases hk : k = key <;> simp [objSet, hk, ih]

theorem lookup_objSet_ne (kvs : List (String × Json)) (key k : String) (v : Json)
    (h : k ≠ key) : lookup (objSet kvs key v) k = lookup kvs k := by
  have h' : ¬ key = k := fun hh => h hh.symm
  induction kvs with
  | nil => simp [objSet, h']
  | cons hd tl ih =>
      obtain ⟨k0, w⟩ := hd
      by_cases hk : k0 = key
      · subst hk
        simp [objSet, h']
      · simp [objSet, hk, ih]

theorem objSet_lookup_eq (kvs : List (String × Json)) (key : String) (v : Json)
    (h : lookup kvs key = some v) : objSet kvs key v = kvs := by
  induction kvs with
  | nil => simp at h
  | cons hd tl ih =>
      obtain ⟨k, w⟩ := hd
      by_cases hk : k = key
      · subst hk
        simp at h
        simp [objSet, h]
      · simp [hk] at h
        simp [objSet, hk, ih h]

theorem index_eq_of_get? {d c : Json} {k : String} (h : d.get? k = some c) :
    d.index k = c := by
  cases d <;> simp_all [Json.get?, Json.index]

theorem index_null_of_get?_none {d : Json} {k : String} (h : d.get? k = none) :
    d.index k = .null := by
  cases d <;> simp_all [Json.get?, Json.index]

theorem setIn_obj_cons (kvs : List (String × Json)) (p : String) (ps : List String) (v : Json) :
    (Json.obj kvs).setIn (p :: ps) v =
      (Json.setIn ((lookup kvs p).getD .null) ps v).map (fun inner => .obj (objSet kvs p inner)) := by
  cases hi : Json.setIn ((lookup kvs p).getD .null) ps v <;> simp [Json.setIn, hi]

theorem setIn_null_cons (p : String) (ps : List String) (v : Json) :
    (Json.null).setIn (p :: ps) v =
      (Json.setIn .null ps v).map (fun inner => .obj [(p, inner)]) := by
  cases hi : Json.setIn (.null : Json) ps v <;> simp [Json.setIn, hi]

/-- Eliminate one level of a successful `setIn`: the child at `p` was
updated by the remaining path starting from `d.index p` (which is `Null`
when `d` is `Null` or lacks the key), and every other key of `d` is
untouched. -/
theorem setIn_cons_parts {d d' v : Json} {p : String} {ps : List String}
    (h : d.setIn (p :: ps) v = some d') :
    ∃ inner, (d.index p).setIn ps v = some inner ∧
      d'.get? p = some inner ∧ d'.index p = inner ∧
      ∀ k, k ≠ p → d'.get? k = d.get? k ∧ d'.index k = d.index k := by
  cases d with
  | obj kvs =>
      rw [setIn_obj_cons] at h
      rw [Option.map_eq_some'] at h
      obtain ⟨inner, hi, hd⟩ := h
      subst hd
      refine ⟨inner, hi, ?_, ?_, ?_⟩
      · simp [Json.get?]
      · simp [Json.index]
      · intro k hk
        constructor
        · simp [Json.get?, lookup_objSet_ne _ _ _ _ hk]
        · simp [Json.index, lookup_objSet_ne _ _ _ _ hk]
  | null =>
      rw [setIn_null_cons] at h
      rw [Option.map_eq_some'] at h
      obtain ⟨inner, hi, hd⟩ := h
      subst hd
      refine ⟨inner, hi, ?_, ?_, ?_⟩
      · simp [Json.get?, Json.index]
      · simp [Json.get?, Json.index]
      · intro k hk
        have hk' : ¬ p = k := fun hh => hk hh.symm
        constructor
        · simp [Json.get?, Json.index, hk']
        · simp [Json.get?, Json.index, hk']
  | bool b => simp [Json.setIn] at h
  | num n => simp [Json.setIn] at h
  | str s => simp [Json.setIn] at h
  | arr xs => simp [Json.setIn] at h

/-- Frame of a one-level `setIn`. -/
theorem setIn_frame1 {d d' v : Json} {p1 : String}
    (h : d.setIn [p1] v = some d') :
    d'.get? p1 = some v ∧ d'.index p1 = v ∧
      ∀ k, k ≠ p1 → d'.get? k = d.get? k ∧ d'.index k = d.index k := by
  obtain ⟨inner, hi, hg, hx, hp⟩ := setIn_cons_parts h
  have hv : v = inner := by simpa [Json.setIn] using hi
  subst hv
  exact ⟨hg, hx, hp⟩

/-- Frame of a two-level `setIn`. -/
theorem setIn_frame2 {d d' v : Json} {p1 p2 : String}
    (h : d.setIn [p1, p2] v = some d') :
    (d'.index p1).get? p2 = some v ∧
      (∀ k, k ≠ p1 → d'.get? k = d.get? k ∧ d'.index k = d.index k) ∧
      ∀ k, k ≠ p2 →
        (d'.index p1).get? k = (d.index p1).get? k ∧
        (d'.index p1).index k = (d.index p1).index k := by
  obtain ⟨inner, hi, hg, hx, hp⟩ := setIn_cons_parts h
  obtain ⟨hg2, hx2, hp2⟩ := setIn_frame1 hi
  rw [hx]
  exact ⟨hg2, hp, hp2⟩

/-- Frame of a three-level `setIn`. -/
theorem setIn_frame3 {d d' v : Json} {p1 p2 p3 : String}
    (h : d.setIn [p1, p2, p3] v = some d') :
    ((d'.index p1).index p2).get? p3 = some v ∧
      (∀ k, k ≠ p1 → d'.get? k = d.get? k ∧ d'.index k = d.index k) ∧
      (∀ k, k ≠ p2 →
        (d'.index p1).get? k = (d.index p1).get? k ∧
        (d'.index p1).index k = (d.index p1).index k) ∧
      ∀ k, k ≠ p3 →
        ((d'.index p1).index p2).get? k = ((d.index p1).index p2).get? k ∧
        ((d'.index p1).index p2).index k = ((d.index p1).index p2).index k := by
  obtain ⟨inner, hi, hg, hx, hp⟩ := setIn_cons_parts h
  obtain ⟨hg2, hp2, hp3⟩ := setIn_frame2 hi
  rw [hx]
  exact ⟨hg2, hp, hp2, hp3⟩

/-- Frame of a four-level `setIn`. -/
theorem setIn_frame4 {d d' v : Json} {p1 p2 p3 p4 : String}
    (h : d.setIn [p1, p2, p3, p4] v = some d') :
    (((d'.index p1).index p2).index p3).get? p4 = some v ∧
      (∀ k, k ≠ p1 → d'.get? k = d.get? k ∧ d'.index k = d.index k) ∧
      (∀ k, k ≠ p2 →
        (d'.index p1).get? k = (d.index p1).get? k ∧
        (d'.index p1).index k = (d.index p1).index k) ∧
      (∀ k, k ≠ p3 →
        ((d'.index p1).index p2).get? k = ((d.index p1).index p2).get? k ∧
        ((d'.index p1).index p2).index k = ((d.index p1).index p2).index k) ∧
      ∀ k, k ≠ p4 →
        (((d'.index p1).index p2).index p3).get? k = (((d.index p1).index p2).index p3).get? k ∧
        (((d'.index p1).index p2).index p3).index k = (((d.index p1).index p2).index p3).index k := by
  obtain ⟨inner, hi, hg, hx, hp⟩ := setIn_cons_parts h
  obtain ⟨hg2, hp2, hp3, hp4⟩ := setIn_frame3 hi
  rw [hx]
  exact ⟨hg2, hp, hp2, hp3, hp4⟩

/-- A successful `setIn` leaves the value reachable along its path. -/
theorem followsPath_of_setIn : ∀ {ps : List String} {d d' v : Json},
    d.setIn ps v = some d' → followsPath d' ps v
  | [], d, d', v, h => by
      simp [Json.setIn] at h
      simp [followsPath, h]
  | _ :: ps, _, d', v, h => by
      obtain ⟨inner, hi, hg, _, _⟩ := setIn_cons_parts h
      exact ⟨inner, hg, followsPath_of_setIn hi⟩

/-- Setting a value that is already in place along an all-objects path is
a no-op. -/
theorem setIn_of_followsPath : ∀ {ps : List String} {d v : Json},
    followsPath d ps v → d.setIn ps v = some d
  | [], d, v, h => by
      simp [followsPath] at h
      simp [Json.setIn, h]
  | p :: ps, d, v, h => by
      obtain ⟨c, hg, hf⟩ := h
      cases d with
      | obj kvs =>
          have hl : lookup kvs p = some c := hg
          rw [setIn_obj_cons]
          simp [hl, setIn_of_followsPath hf, objSet_lookup_eq kvs p c hl]
      | null => simp [Json.get?] at hg
      | bool b => simp [Json.get?] at hg
      | num n => simp [Json.get?] at hg
      | str s => simp [Json.get?] at hg
      | arr xs => simp [Json.get?] at hg

/-- Unpack the four sequential statements of the merge. -/
theorem mergeDoc_steps {sk var key : String} {d d' : Json}
    (h : mergeDoc sk var key d = some d') :
    ∃ c1 c2 c3,
      (if (d.get? sk).isNone then d.setIn [sk] (.obj []) else some d) = some c1 ∧
      (if ((c1.index sk).get? "narsil-mcp").isNone
        then c1.setIn [sk, "narsil-mcp"] defaultServerEntry else some c1) = some c2 ∧
      (if (((c2.index sk).index "narsil-mcp").get? "env").isNone
        then c2.setIn [sk, "narsil-mcp", "env"] (.obj []) else some c2) = some c3 ∧
      c3.setIn [sk, "narsil-mcp", "env", var] (.str key) = some d' := by
  simp only [mergeDoc, Option.bind_eq_some] at h
  obtain ⟨c1, h1, c2, h2, c3, h3, h4⟩ := h
  exact ⟨c1, c2, c3, h1, h2, h3, h4⟩

/-- C4: the merge is idempotent — for every starting document, merging the
same `(env_var_name, key_value)` pair twice yields, after the second
merge, the document produced by the first merge: no duplicate keys and no
duplicate `narsil-mcp` entries are introduced.  Stated on documents (the
in-memory transformation of `add_to_editor_config` for any dialect's
container key); between the two merges the file holds the first result's
serialization, which serde_json parses back to the same document. -/
theorem mergeDoc_idempotent {sk var key : String} {d d' : Json}
    (h : mergeDoc sk var key d = some d') :
    mergeDoc sk var key d' = some d' := by
  obtain ⟨c1, c2, c3, h1, h2, h3, h4⟩ := mergeDoc_steps h
  have hf : followsPath d' [sk, "narsil-mcp", "env", var] (.str key) :=
    followsPath_of_setIn h4
  obtain ⟨sv, hg1, nmv, hg2, ev, hg3, hrest⟩ := hf
  have hf' : followsPath d' [sk, "narsil-mcp", "env", var] (.str key) :=
    ⟨sv, hg1, nmv, hg2, ev, hg3, hrest⟩
  have hi1 := index_eq_of_get? hg1
  have hi2 := index_eq_of_get? hg2
  simp only [mergeDoc, hg1, hi1, hg2, hi2, hg3, Option.isNone_some, Bool.false_eq_true,
    if_false, Option.some_bind]
  exact setIn_of_followsPath hf'

/-- C1: for every existing JSON document, env-var name and key value, the
merge of `add_to_editor_config` never deletes or overwrites any key except
the single credential entry `env[env_var_name]` and the scaffolding needed
to reach it: all sibling keys at top level, all other entries of the
container, all fields of a pre-existing `narsil-mcp` entry (e.g. `command`
and `args`), and all pre-existing entries of its `env` object are
preserved verbatim, and the credential entry is written.  Stated for any
dialect's container key `sk`. -/
theorem mergeDoc_frame {sk var key : String} {d d' : Json}
    (h : mergeDoc sk var key d = some d') :
    (∀ k, k ≠ sk → d'.get? k = d.get? k) ∧
    (∀ sv, d.get? sk = some sv → ∀ k, k ≠ "narsil-mcp" →
      (d'.index sk).get? k = sv.get? k) ∧
    (∀ nm, (d.index sk).get? "narsil-mcp" = some nm → ∀ k, k ≠ "env" →
      ((d'.index sk).index "narsil-mcp").get? k = nm.get? k) ∧
    (∀ ev, ((d.index sk).index "narsil-mcp").get? "env" = some ev → ∀ k, k ≠ var →
      (((d'.index sk).index "narsil-mcp").index "env").get? k = ev.get? k) ∧
    (((d'.index sk).index "narsil-mcp").index "env").get? var = some (.str key) := by
  obtain ⟨c1, c2, c3, h1, h2, h3, h4⟩ := mergeDoc_steps h
  have f4 := setIn_frame4 h4
  have t1 : ∀ k, k ≠ sk → c1.get? k = d.get? k ∧ c1.index k = d.index k := by
    by_cases hc : (d.get? sk).isNone = true
    · rw [if_pos hc] at h1
      exact (setIn_frame1 h1).2.2
    · rw [if_neg hc] at h1
      obtain rfl : d = c1 := Option.some.inj h1
      exact fun k _ => ⟨rfl, rfl⟩
  have t2 : ∀ k, k ≠ sk → c2.get? k = c1.get? k ∧ c2.index k = c1.index k := by
    by_cases hc : ((c1.index sk).get? "narsil-mcp").isNone = true
    · rw [if_pos hc] at h2
      exact (setIn_frame2 h2).2.1
    · rw [if_neg hc] at h2
      obtain rfl : c1 = c2 := Option.some.inj h2
      exact fun k _ => ⟨rfl, rfl⟩
  have t3 : ∀ k, k ≠ sk → c3.get? k = c2.get? k ∧ c3.index k = c2.index k := by
    by_cases hc : (((c2.index sk).index "narsil-mcp").get? "env").isNone = true
    · rw [if_pos hc] at h3
      exact (setIn_frame3 h3).2.1
    · rw [if_neg hc] at h3
      obtain rfl : c2 = c3 := Option.some.inj h3
      exact fun k _ => ⟨rfl, rfl⟩
  refine ⟨?_, ?_, ?_, ?_, f4.1⟩
  · intro k hk
    exact ((f4.2.1 k hk).1.trans (t3 k hk).1).trans ((t2 k hk).1.trans (t1 k hk).1)
  · -- container siblings of narsil-mcp
    intro sv hsv k hk
    have hc1 : ¬ (d.get? sk).isNone = true := by simp [hsv]
    rw [if_neg hc1] at h1
    obtain rfl : d = c1 := Option.some.inj h1
    have m2 : (c2.index sk).get? k = (d.index sk).get? k := by
      by_cases hc : ((d.index sk).get? "narsil-mcp").isNone = true
      · rw [if_pos hc] at h2
        exact ((setIn_frame2 h2).2.2 k hk).1
      · rw [if_neg hc] at h2
        obtain rfl : d = c2 := Option.some.inj h2
        rfl
    have m3 : (c3.index sk).get? k = (c2.index sk).get? k := by
      by_cases hc : (((c2.index sk).index "narsil-mcp").get? "env").isNone = true
      · rw [if_pos hc] at h3
        exact ((setIn_frame3 h3).2.2.1 k hk).1
      · rw [if_neg hc] at h3
        obtain rfl : c2 = c3 := Option.some.inj h3
        rfl
    have m4 : (d'.index sk).get? k = (c3.index sk).get? k := (f4.2.2.1 k hk).1
    rw [m4, m3, m2, index_eq_of_get? hsv]
  · -- fields of a pre-existing narsil-mcp entry
    intro nm hnm k hk
    have hds : ¬ (d.get? sk).isNone = true := by
      intro hcon
      rw [index_null_of_get?_none (Option.isNone_iff_eq_none.mp hcon)] at hnm
      simp [Json.get?] at hnm
    rw [if_neg hds] at h1
    obtain rfl : d = c1 := Option.some.inj h1
    have hc2 : ¬ ((d.index sk).get? "narsil-mcp").isNone = true := by simp [hnm]
    rw [if_neg hc2] at h2
    obtain rfl : d = c2 := Option.some.inj h2
    have p3 : ((c3.index sk).index "narsil-mcp").get? k =
        ((d.index sk).index "narsil-mcp").get? k := by
      by_cases hc : (((d.index sk).index "narsil-mcp").get? "env").isNone = true
      · rw [if_pos hc] at h3
        exact ((setIn_frame3 h3).2.2.2 k hk).1
      · rw [if_neg hc] at h3
        obtain rfl : d = c3 := Option.some.inj h3
        rfl
    have p4 : ((d'.index sk).index "narsil-mcp").get? k =
        ((c3.index sk).index "narsil-mcp").get? k := (f4.2.2.2.1 k hk).1
    rw [p4, p3, index_eq_of_get? hnm]
  · -- pre-existing env entries other than the credential key
    intro ev henv k hk
    have hds : ¬ (d.get? sk).isNone = true := by
      intro hcon
      rw [index_null_of_get?_none (Option.isNone_iff_eq_none.mp hcon)] at henv
      simp [Json.index, Json.get?] at henv
    rw [if_neg hds] at h1
    obtain rfl : d = c1 := Option.some.inj h1
    have hc2 : ¬ ((d.index sk).get? "narsil-mcp").isNone = true := by
      intro hcon
      rw [index_null_of_get?_none (Option.isNone_iff_eq_none.mp hcon)] at henv
      simp [Json.get?] at henv
    rw [if_neg hc2] at h2
    obtain rfl : d = c2 := Option.some.inj h2
    have hc3 : ¬ (((d.index sk).index "narsil-mcp").get? "env").isNone = true := by
      simp [henv]
    rw [if_neg hc3] at h3
    obtain rfl : d = c3 := Option.some.inj h3
    rw [(f4.2.2.2.2 k hk).1, index_eq_of_get? henv]

/-- On well-shaped documents the merge always produces a document (no
panic). -/
theorem mergeDoc_isSome_of_goodShape (sk var key : String) (d : Json)
    (h : goodShape sk d = true) : (mergeDoc sk var key d).isSome = true := by
  cases d with
  | null =>
      simp [mergeDoc, Json.get?, Json.index, Json.setIn, lookup, objSet, defaultServerEntry]
  | bool b => simp [goodShape] at h
  | num n => simp [goodShape] at h
  | str s => simp [goodShape] at h
  | arr xs => simp [goodShape] at h
  | obj kvs =>
      rcases hsv : lookup kvs sk with _ | sv
      · simp [mergeDoc, Json.get?, Json.index, Json.setIn, lookup, objSet, defaultServerEntry, hsv]
      · cases sv with
        | null =>
            simp [mergeDoc, Json.get?, Json.index, Json.setIn, lookup, objSet,
              defaultServerEntry, hsv]
        | bool b => simp [goodShape, hsv] at h
        | num n => simp [goodShape, hsv] at h
        | str s => simp [goodShape, hsv] at h
        | arr xs => simp [goodShape, hsv] at h
        | obj kvs2 =>
            rcases hnm : lookup kvs2 "narsil-mcp" with _ | nmv
            · simp [mergeDoc, Json.get?, Json.index, Json.setIn, lookup, objSet,
                defaultServerEntry, hsv, hnm]
            · cases nmv with
              | null =>
                  simp [mergeDoc, Json.get?, Json.index, Json.setIn, lookup, objSet,
                    defaultServerEntry, hsv, hnm]
              | bool b => simp [goodShape, hsv, hnm] at h
              | num n => simp [goodShape, hsv, hnm] at h
              | str s => simp [goodShape, hsv, hnm] at h
              | arr xs => simp [goodShape, hsv, hnm] at h
              | obj kvs3 =>
                  rcases henv : lookup kvs3 "env" with _ | ev
                  · simp [mergeDoc, Json.get?, Json.index, Json.setIn, lookup, objSet,
                      defaultServerEntry, hsv, hnm, henv]
                  · cases ev with
                    | null =>
                        simp [mergeDoc, Json.get?, Json.index, Json.setIn, lookup, objSet,
                          defaultServerEntry, hsv, hnm, henv]
                    | bool b => simp [goodShape, hsv, hnm, henv] at h
                    | num n => simp [goodShape, hsv, hnm, henv] at h
                    | str s => simp [goodShape, hsv, hnm, henv] at h
                    | arr xs => simp [goodShape, hsv, hnm, henv] at h
                    | obj kvs4 =>
                        simp [mergeDoc, Json.get?, Json.index, Json.setIn, lookup, objSet,
                          defaultServerEntry, hsv, hnm, henv]


/-! ## Sanitizer and validator lemmas -/

theorem stripWhileFront_eq_dropWhile (p : Char → Bool) :
    ∀ l : List Char, stripWhileFront p l = l.dropWhile p
  | [] => rfl
  | x :: xs => by
      simp [stripWhileFront, List.dropWhile_cons, stripWhileFront_eq_dropWhile p xs]

theorem stripWhileEnds_eq_trimEnds (p : Char → Bool) (l : List Char) :
    stripWhileEnds p l = trimEnds p l := by
  simp [stripWhileEnds, trimEnds, stripWhileFront_eq_dropWhile]

theorem dropWhile_eq_self_of_head (p : Char → Bool) (l : List Char)
    (h : ∀ c, l.head? = some c → p c = false) : l.dropWhile p = l := by
  cases l with
  | nil => rfl
  | cons x xs => simp [List.dropWhile_cons, h x rfl]

theorem trimEnds_eq_self (p : Char → Bool) (l : List Char)
    (hh : ∀ c, l.head? = some c → p c = false)
    (hl : ∀ c, l.getLast? = some c → p c = false) : trimEnds p l = l := by
  have h1 : l.dropWhile p = l := dropWhile_eq_self_of_head p l hh
  have h2 : l.reverse.dropWhile p = l.reverse := by
    apply dropWhile_eq_self_of_head
    intro c hc
    exact hl c (by rwa [List.head?_reverse] at hc)
  simp [trimEnds, h1, h2]

/-- On a string whose ends are not strippable, the sanitizer is the
identity. -/
theorem sanitize_fixes_clean (t : String) (h : goodEdges t.data = true) :
    sanitize_api_key t = t := by
  cases hd : t.data with
  | nil =>
      have ht : t = ⟨[]⟩ := by cases t; simp_all
      subst ht
      rfl
  | cons c cs =>
      rcases hz : (c :: cs).getLast? with _ | z
      · simp at hz
      · rw [goodEdges.eq_def, hd, hz] at h
        simp only [Bool.and_eq_true, Bool.not_eq_true'] at h
        obtain ⟨hc, hzc⟩ := h
        simp only [isStrippableEdge, Bool.or_eq_false_iff, beq_eq_false_iff_ne] at hc hzc
        have hhead : ∀ d, t.data.head? = some d → d = c := by
          intro d hdd
          rw [hd] at hdd
          simp at hdd
          exact hdd.symm
        have hlast : ∀ d, t.data.getLast? = some d → d = z := by
          intro d hdd
          rw [hd, hz] at hdd
          simp at hdd
          exact hdd.symm
        have e1 : trimEnds rustIsWhitespace t.data = t.data :=
          trimEnds_eq_self _ _
            (fun d hdd => by rw [hhead d hdd]; exact hc.1.1)
            (fun d hdd => by rw [hlast d hdd]; exact hzc.1.1)
        have t1 : rustTrim t = t := by
          rw [rustTrim, e1]
        have e2 : trimEnds (fun x => x == '"') t.data = t.data :=
          trimEnds_eq_self _ _
            (fun d hdd => by rw [hhead d hdd]; simp [hc.1.2])
            (fun d hdd => by rw [hlast d hdd]; simp [hzc.1.2])
        have t2 : rustTrimMatches '"' t = t := by
          rw [rustTrimMatches, e2]
        have e3 : trimEnds (fun x => x == '\'') t.data = t.data :=
          trimEnds_eq_self _ _
            (fun d hdd => by rw [hhead d hdd]; simp [hc.2])
            (fun d hdd => by rw [hlast d hdd]; simp [hzc.2])
        have t3 : rustTrimMatches '\'' t = t := by
          rw [rustTrimMatches, e3]
        rw [sanitize_api_key, t1, t2, t3]

theorem isPrefixOf_iff_append : ∀ (p l : List Char), p.isPrefixOf l = true ↔ ∃ t, l = p ++ t
  | [], l => by simp [List.isPrefixOf]
  | a :: as, [] => by simp [List.isPrefixOf]
  | a :: as, b :: bs => by
      simp only [List.isPrefixOf, Bool.and_eq_true, beq_iff_eq, isPrefixOf_iff_append as bs,
        List.cons_append, List.cons.injEq]
      constructor
      · rintro ⟨hab, t, ht⟩
        exact ⟨t, hab.symm, ht⟩
      · rintro ⟨t, hb, ht⟩
        exact ⟨hb.symm, t, ht⟩

theorem detect_toOption_eq_amended (p : String) :
    (detect_editor_type p).toOption = amendedClassification p := by
  by_cases h1 : fileName p = "claude_desktop_config.json"
  · simp [detect_editor_type, amendedClassification, h1, Except.toOption]
  · by_cases h2 : fileName p = "claude_code_config.json"
    · simp [detect_editor_type, amendedClassification, h1, h2, Except.toOption]
    · by_cases h3 : fileName p = "settings.json"
      · simp [detect_editor_type, amendedClassification, h1, h2, h3, Except.toOption, ite_self]
      · by_cases h4 : fileName p = "mcp.json"
        · by_cases hv : containsSub p ".vscode" = true
          · simp [detect_editor_type, amendedClassification, h1, h2, h3, h4, hv, Except.toOption]
          · by_cases hi : containsSub p ".idea" = true
            · simp [detect_editor_type, amendedClassification, h1, h2, h3, h4, hv, hi,
                Except.toOption]
            · simp [detect_editor_type, amendedClassification, h1, h2, h3, h4, hv, hi,
                Except.toOption]
        · by_cases hz : containsSub p "zed" = true
          · simp [detect_editor_type, amendedClassification, h1, h2, h3, h4, hz, Except.toOption]
          · by_cases hv : containsSub p ".vscode" = true
            · simp [detect_editor_type, amendedClassification, h1, h2, h3, h4, hz, hv,
                Except.toOption]
            · by_cases hi : containsSub p ".idea" = true
              · simp [detect_editor_type, amendedClassification, h1, h2, h3, h4, hz, hv, hi,
                  Except.toOption]
              · simp [detect_editor_type, amendedClassification, h1, h2, h3, h4, hz, hv, hi,
                  Except.toOption]

/-! ## Claim theorems -/

/-- C2: for every path whose file exists but whose contents do not parse
as JSON, `add_to_editor_config` returns an error and the file's bytes are
left unchanged — no write occurs on the parse-failure branch. -/
theorem parse_failure_aborts_merge (path var key content : String)
    (h : parseJson content = none) :
    add_to_editor_config path var key (.present content) =
      (.error "Failed to parse existing config as JSON", .present content) := by
  simp [add_to_editor_config, h]

/-- Witness for C2 at the spec's concrete input `"{ invalid json }"`. -/
theorem parse_failure_aborts_merge_witness :
    parseJson "{ invalid json }" = none ∧
    add_to_editor_config "x/claude_desktop_config.json" "VOYAGE_API_KEY" "pa-test123"
        (.present "{ invalid json }") =
      (.error "Failed to parse existing config as JSON", .present "{ invalid json }") :=
  ⟨rfl, parse_failure_aborts_merge _ _ _ _ rfl⟩

/-- C3 counterexample: at `/p/.vscode/settings.json` the claim's decision
list — `settings.json` maps to Zed only with `zed` in the path or with no
other signal, so a `settings.json` carrying the `.vscode` signal falls to
the substring fallback — yields VSCode, but the code classifies every
`settings.json` as Zed before the fallback is reached. -/
theorem detect_settings_vscode_counterexample :
    detect_editor_type "/p/.vscode/settings.json" = .ok .Zed ∧
    claimClassification "/p/.vscode/settings.json" = some .VSCode ∧
    (detect_editor_type "/p/.vscode/settings.json").toOption ≠
      claimClassification "/p/.vscode/settings.json" :=
  ⟨rfl, rfl, by decide⟩

/-- C3 (amended): dialect classification is deterministic with exact
filename match taking priority — `claude_desktop_config.json` maps to
ClaudeDesktop and `claude_code_config.json` to ClaudeCode (container key
`mcpServers`); EVERY `settings.json` maps to Zed (`context_servers`), even
when the path carries a `.vscode` or `.idea` signal; `mcp.json` with
`.vscode` maps to VSCode, otherwise with `.idea` to JetBrains (both
`servers`), and bare `mcp.json` defaults to VSCode; otherwise substring
search for `zed`, `.vscode`, `.idea` anywhere in the path decides; if none
match, classification fails with an error and nothing is written. -/
theorem detect_editor_type_amended :
    (∀ p, (detect_editor_type p).toOption = amendedClassification p) ∧
    get_config_key_for_editor .ClaudeDesktop = "mcpServers" ∧
    get_config_key_for_editor .ClaudeCode = "mcpServers" ∧
    get_config_key_for_editor .Zed = "context_servers" ∧
    get_config_key_for_editor .VSCode = "servers" ∧
    get_config_key_for_editor .JetBrains = "servers" ∧
    (∀ p var key f, amendedClassification p = none →
      ∃ msg, add_to_editor_config p var key f = (.error msg, f)) := by
  refine ⟨detect_toOption_eq_amended, rfl, rfl, rfl, rfl, rfl, ?_⟩
  intro p var key f h
  cases hdet : detect_editor_type p with
  | ok et =>
      exfalso
      have hto := detect_toOption_eq_amended p
      rw [hdet, h] at hto
      simp [Except.toOption] at hto
  | error e =>
      cases f with
      | absent => exact ⟨e, by simp [add_to_editor_config, addParsed, hdet]⟩
      | present content =>
          cases hp : parseJson content with
          | none =>
              exact ⟨"Failed to parse existing config as JSON", by
                simp [add_to_editor_config, hp]⟩
          | some dcfg => exact ⟨e, by simp [add_to_editor_config, hp, addParsed, hdet]⟩

/-- Witness for the amended C3's abort component at the unclassifiable
path `notes.txt`. -/
theorem detect_editor_type_amended_witness :
    ∃ msg, add_to_editor_config "notes.txt" "VOYAGE_API_KEY" "pa-k" .absent =
      (.error msg, .absent) :=
  detect_editor_type_amended.2.2.2.2.2.2 "notes.txt" "VOYAGE_API_KEY" "pa-k" .absent rfl

/-- C7: `ApiProvider::parse` accepts the provider names case-insensitively
and their 1-based ordinals, and every other input yields `none` (no
match), not an error. -/
theorem api_provider_parse_spec :
    (∀ s : String,
      (ApiProvider.parse s = some .Voyage ↔ strToLower s = "voyage" ∨ strToLower s = "1") ∧
      (ApiProvider.parse s = some .OpenAI ↔ strToLower s = "openai" ∨ strToLower s = "2") ∧
      (ApiProvider.parse s = some .Custom ↔ strToLower s = "custom" ∨ strToLower s = "3") ∧
      (ApiProvider.parse s = none ↔
        ¬ (strToLower s = "voyage" ∨ strToLower s = "1" ∨ strToLower s = "openai" ∨
           strToLower s = "2" ∨ strToLower s = "custom" ∨ strToLower s = "3"))) ∧
    ApiProvider.parse "1" = some .Voyage ∧
    ApiProvider.parse "voyage" = some .Voyage ∧
    ApiProvider.parse "Voyage" = some .Voyage ∧
    ApiProvider.parse "nonsense" = none := by
  refine ⟨?_, rfl, rfl, rfl, rfl⟩
  intro s
  by_cases e1 : strToLower s = "voyage" <;>
  by_cases e2 : strToLower s = "1" <;>
  by_cases e3 : strToLower s = "openai" <;>
  by_cases e4 : strToLower s = "2" <;>
  by_cases e5 : strToLower s = "custom" <;>
  by_cases e6 : strToLower s = "3" <;>
  simp_all [ApiProvider.parse]

/-- C6: `validate_key_format` accepts a Voyage key exactly when it starts
with `pa-` and is longer than 10 bytes, an OpenAI key exactly when it
starts with `sk-` and is longer than 10 bytes, and a Custom key exactly
when it is non-empty. -/
theorem validate_key_format_spec : ∀ k : String,
    (validate_key_format k .Voyage = true ↔
      (∃ t, k.data = "pa-".data ++ t) ∧ 10 < k.utf8ByteSize) ∧
    (validate_key_format k .OpenAI = true ↔
      (∃ t, k.data = "sk-".data ++ t) ∧ 10 < k.utf8ByteSize) ∧
    (validate_key_format k .Custom = true ↔ k ≠ "") := by
  intro k
  refine ⟨?_, ?_, ?_⟩
  · simp only [validate_key_format, Bool.and_eq_true, decide_eq_true_eq, rustStartsWith]
    rw [isPrefixOf_iff_append]
  · simp only [validate_key_format, Bool.and_eq_true, decide_eq_true_eq, rustStartsWith]
    rw [isPrefixOf_iff_append]
  · simp [validate_key_format, ← String.isEmpty_iff]

/-- C8: for all five editors, the locator's resolved path ends in the
fixed per-editor filename, on every platform and for every home/workspace
directory. -/
theorem locator_filename_spec :
    ∀ (plat : Platform) (home cwd : List String) (et : EditorType),
      (get_editor_config_path plat home cwd et).getLast? = some (editorFileName et) := by
  intro plat home cwd et
  cases et <;> cases plat <;>
    simp [get_editor_config_path, editorFileName, List.getLast?_concat]

/-- C5 counterexample: the code's `trim_matches` strips ALL surrounding
quote characters, not exactly one layer — on `""pa-abc""` the code yields
`pa-abc` while the claim's one-layer sanitizer yields `"pa-abc"`. -/
theorem sanitize_one_layer_counterexample :
    sanitize_api_key "\"\"pa-abc\"\"" = "pa-abc" ∧
    sanitizeOneLayer "\"\"pa-abc\"\"" = "\"pa-abc\"" ∧
    sanitize_api_key "\"\"pa-abc\"\"" ≠ sanitizeOneLayer "\"\"pa-abc\"\"" :=
  ⟨rfl, rfl, by decide⟩

/-- C5 (amended): `sanitize_api_key` trims surrounding whitespace, then
ALL surrounding double-quote characters, then ALL surrounding single-quote
characters, each side independently; the claim's three examples all yield
`pa-abc`. -/
theorem sanitize_strips_all_quote_layers :
    (∀ s, sanitize_api_key s = sanitizeAllLayers s) ∧
    sanitize_api_key " pa-abc " = "pa-abc" ∧
    sanitize_api_key "\"pa-abc\"" = "pa-abc" ∧
    sanitize_api_key "'pa-abc'" = "pa-abc" := by
  refine ⟨?_, rfl, rfl, rfl⟩
  intro s
  simp [sanitize_api_key, sanitizeAllLayers, rustTrim, rustTrimMatches,
    stripWhileEnds_eq_trimEnds]

/-- C10 counterexample: sanitization is not idempotent — `" x "` (the
sanitized form of `"\" x \""`) sanitizes further to `"x"`. -/
theorem sanitize_api_key_not_idempotent :
    sanitize_api_key (sanitize_api_key "\" x \"") ≠ sanitize_api_key "\" x \"" := by
  decide

/-- C10 (amended): `sanitize_api_key` is idempotent on every input whose
sanitized form is empty or neither starts nor ends with whitespace, a
double quote, or a single quote; in general quote stripping can expose
further strippable characters, and a second application removes them. -/
theorem sanitize_idempotent_on_clean (s : String)
    (h : goodEdges (sanitize_api_key s).data = true) :
    sanitize_api_key (sanitize_api_key s) = sanitize_api_key s :=
  sanitize_fixes_clean _ h

/-- Witness for the amended C10 at `'pa-abc'`. -/
theorem sanitize_idempotent_on_clean_witness :
    goodEdges (sanitize_api_key "'pa-abc'").data = true ∧
    sanitize_api_key (sanitize_api_key "'pa-abc'") = sanitize_api_key "'pa-abc'" :=
  ⟨rfl, sanitize_idempotent_on_clean "'pa-abc'" rfl⟩

/-- C9 counterexample: on an existing file whose contents parse as JSON
with an array root, the merge panics (serde_json `IndexMut` on an array
with a string key) instead of returning success or an error. -/
theorem merge_panics_on_array_root :
    parseJson "[ 1 ]" = some (.arr [.num "1"]) ∧
    add_to_editor_config "x/settings.json" "VOYAGE_API_KEY" "pa-k" (.present "[ 1 ]") =
      (.panic, .present "[ 1 ]") :=
  ⟨rfl, rfl⟩

/-- C9 (amended): for every existing parseable file whose document is
well-shaped along the merge path — the root, the container entry, the
`narsil-mcp` entry and its `env` field each absent, null, or an object —
the operation terminates returning success or an error and never panics. -/
theorem add_no_panic_on_goodShape (path var key content : String) (d : Json)
    (hp : parseJson content = some d)
    (hs : ∀ et, detect_editor_type path = .ok et →
      goodShape (get_config_key_for_editor et) d = true) :
    (add_to_editor_config path var key (.present content)).1 ≠ Outcome.panic := by
  cases hdet : detect_editor_type path with
  | error e => simp [add_to_editor_config, hp, addParsed, hdet]
  | ok et =>
      obtain ⟨nd, hnd⟩ := Option.isSome_iff_exists.mp
        (mergeDoc_isSome_of_goodShape (get_config_key_for_editor et) var key d (hs et hdet))
      simp [add_to_editor_config, hp, addParsed, hdet, hnd]

/-- Witness for the amended C9 at an existing empty-object file. -/
theorem add_no_panic_on_goodShape_witness :
    (add_to_editor_config "x/settings.json" "VOYAGE_API_KEY" "pa-k" (.present "{}")).1 ≠
      Outcome.panic := by
  apply add_no_panic_on_goodShape "x/settings.json" "VOYAGE_API_KEY" "pa-k" "{}" (Json.obj []) rfl
  intro et het
  have h2 : Except.ok EditorType.Zed = Except.ok et := het
  cases h2
  rfl

/-- Witness for C1 at the spec's preservation example: `command` and
`args` survive the merge and the credential is added. -/
theorem mergeDoc_frame_witness :
    ((((Json.obj [("mcpServers", Json.obj [("narsil-mcp",
        Json.obj [("command", Json.str "x"), ("args", Json.arr [Json.str "a"]),
          ("env", Json.obj [("VOYAGE_API_KEY", Json.str "pa-1")])])])]).index
        "mcpServers").index "narsil-mcp").get? "command" = some (Json.str "x")) ∧
    ((((Json.obj [("mcpServers", Json.obj [("narsil-mcp",
        Json.obj [("command", Json.str "x"), ("args", Json.arr [Json.str "a"]),
          ("env", Json.obj [("VOYAGE_API_KEY", Json.str "pa-1")])])])]).index
        "mcpServers").index "narsil-mcp").get? "args" = some (Json.arr [Json.str "a"])) ∧
    (((((Json.obj [("mcpServers", Json.obj [("narsil-mcp",
        Json.obj [("command", Json.str "x"), ("args", Json.arr [Json.str "a"]),
          ("env", Json.obj [("VOYAGE_API_KEY", Json.str "pa-1")])])])]).index
        "mcpServers").index "narsil-mcp").index "env").get? "VOYAGE_API_KEY" =
      some (Json.str "pa-1")) := by
  have h : mergeDoc "mcpServers" "VOYAGE_API_KEY" "pa-1"
      (Json.obj [("mcpServers", Json.obj [("narsil-mcp",
        Json.obj [("command", Json.str "x"), ("args", Json.arr [Json.str "a"])])])]) =
      some (Json.obj [("mcpServers", Json.obj [("narsil-mcp",
        Json.obj [("command", Json.str "x"), ("args", Json.arr [Json.str "a"]),
          ("env", Json.obj [("VOYAGE_API_KEY", Json.str "pa-1")])])])]) := rfl
  have hf := mergeDoc_frame h
  refine ⟨?_, ?_, hf.2.2.2.2⟩
  · exact (hf.2.2.1 (Json.obj [("command", Json.str "x"), ("args", Json.arr [Json.str "a"])])
      rfl "command" (by decide)).trans rfl
  · exact (hf.2.2.1 (Json.obj [("command", Json.str "x"), ("args", Json.arr [Json.str "a"])])
      rfl "args" (by decide)).trans rfl

/-- Witness for C4: remerging the merged empty document is the identity. -/
theorem mergeDoc_idempotent_witness :
    mergeDoc "mcpServers" "VOYAGE_API_KEY" "pa-test123"
      (Json.obj [("mcpServers", Json.obj [("narsil-mcp",
        Json.obj [("command", Json.str "narsil-mcp"),
          ("args", Json.arr [Json.str "--repos", Json.str ".", Json.str "--neural"]),
          ("env", Json.obj [("VOYAGE_API_KEY", Json.str "pa-test123")])])])]) =
    some (Json.obj [("mcpServers", Json.obj [("narsil-mcp",
      Json.obj [("command", Json.str "narsil-mcp"),
        ("args", Json.arr [Json.str "--repos", Json.str ".", Json.str "--neural"]),
        ("env", Json.obj [("VOYAGE_API_KEY", Json.str "pa-test123")])])])]) :=
  mergeDoc_idempotent (show mergeDoc "mcpServers" "VOYAGE_API_KEY" "pa-test123" (Json.obj []) =
    some (Json.obj [("mcpServers", Json.obj [("narsil-mcp",
      Json.obj [("command", Json.str "narsil-mcp"),
        ("args", Json.arr [Json.str "--repos", Json.str ".", Json.str "--neural"]),
        ("env", Json.obj [("VOYAGE_API_KEY", Json.str "pa-test123")])])])]) from rfl)

end Narsil
